import Mathlib

/-!
Shallow embedding of the `uuid47` Go package (file `uuid47.go`): a UUIDv7
to UUIDv4-façade transform built on SipHash-2-4, plus the canonical text
codec.  Machine integers (`byte`, `uint64`) are modelled as `Nat` with
explicit `% 2^8` / `% 2^64` wrapping at the points where the Go code
performs a narrowing conversion or where `uint64` arithmetic overflows.
-/

namespace Uuid47

/-- Wrap to `uint64` range, the implicit modulus of Go `uint64` arithmetic. -/
def w64 (x : Nat) : Nat := x % 2 ^ 64

/-- `UUID` is a 128 bit (16 byte) value; each field models one byte (`< 256`
for well-formed values, see `UUID.Valid`). -/
structure UUID where
  b0 : Nat
  b1 : Nat
  b2 : Nat
  b3 : Nat
  b4 : Nat
  b5 : Nat
  b6 : Nat
  b7 : Nat
  b8 : Nat
  b9 : Nat
  b10 : Nat
  b11 : Nat
  b12 : Nat
  b13 : Nat
  b14 : Nat
  b15 : Nat
deriving DecidableEq

/-- All sixteen bytes are in `byte` range. -/
def UUID.Valid (u : UUID) : Prop :=
  u.b0 < 256 ∧ u.b1 < 256 ∧ u.b2 < 256 ∧ u.b3 < 256 ∧
  u.b4 < 256 ∧ u.b5 < 256 ∧ u.b6 < 256 ∧ u.b7 < 256 ∧
  u.b8 < 256 ∧ u.b9 < 256 ∧ u.b10 < 256 ∧ u.b11 < 256 ∧
  u.b12 < 256 ∧ u.b13 < 256 ∧ u.b14 < 256 ∧ u.b15 < 256

instance (u : UUID) : Decidable u.Valid := by
  unfold UUID.Valid; infer_instance

/-- `Key` is a SipHash 128-bit key (`K0`, `K1` are `uint64`). -/
structure Key where
  K0 : Nat
  K1 : Nat
deriving DecidableEq

/-- `rd64le` reads a 64-bit little-endian value from a byte sequence. -/
def rd64le (p : List Nat) : Nat :=
  p.getD 0 0 ||| (p.getD 1 0) <<< 8 ||| (p.getD 2 0) <<< 16 |||
  (p.getD 3 0) <<< 24 ||| (p.getD 4 0) <<< 32 ||| (p.getD 5 0) <<< 40 |||
  (p.getD 6 0) <<< 48 ||| (p.getD 7 0) <<< 56

/-- `rd48be` reads a 48-bit big-endian value from a byte sequence. -/
def rd48be (src : List Nat) : Nat :=
  (src.getD 0 0) <<< 40 ||| (src.getD 1 0) <<< 32 ||| (src.getD 2 0) <<< 24 |||
  (src.getD 3 0) <<< 16 ||| (src.getD 4 0) <<< 8 ||| (src.getD 5 0) <<< 0

/-- `rotl64` rotates a 64-bit value left by `b` bits. -/
def rotl64 (x : Nat) (b : Nat) : Nat :=
  w64 ((x <<< b) ||| (x >>> (64 - b)))

/-- Internal state of SipHash: four `uint64` words. -/
structure SipState where
  v0 : Nat
  v1 : Nat
  v2 : Nat
  v3 : Nat
deriving DecidableEq

/-- One SipHash mixing round (the body of the `for range 2` / `for range 4`
loops of `siphash24`): 4 additions, 4 rotations, 4 XORs in fixed order. -/
def sipRound (s : SipState) : SipState :=
  let v0 := w64 (s.v0 + s.v1)
  let v2 := w64 (s.v2 + s.v3)
  let v1 := rotl64 s.v1 13
  let v3 := rotl64 s.v3 16
  let v1 := v1 ^^^ v0
  let v3 := v3 ^^^ v2
  let v0 := rotl64 v0 32
  let v2 := w64 (v2 + v1)
  let v0 := w64 (v0 + v3)
  let v1 := rotl64 v1 17
  let v3 := rotl64 v3 21
  let v1 := v1 ^^^ v2
  let v3 := v3 ^^^ v0
  let v2 := rotl64 v2 32
  ⟨v0, v1, v2, v3⟩

/-- One iteration of the 8-byte block loop of `siphash24`:
`v3 ^= m`, two compression rounds, `v0 ^= m`. -/
def sipCompress (s : SipState) (m : Nat) : SipState :=
  let s := { s with v3 := s.v3 ^^^ m }
  let s := sipRound (sipRound s)
  { s with v0 := s.v0 ^^^ m }

/-- The block loop of `siphash24` (`for i := 0; i < end; i += 8`): process
8-byte little-endian blocks while at least 8 bytes remain, returning the
final state and the 0-7 remaining tail bytes. -/
def sipBlocks : SipState → List Nat → SipState × List Nat
  | s, m0 :: m1 :: m2 :: m3 :: m4 :: m5 :: m6 :: m7 :: rest =>
      sipBlocks (sipCompress s (rd64le (m0 :: m1 :: m2 :: m3 :: m4 :: m5 :: m6 :: m7 :: rest))) rest
  | s, rest => (s, rest)

/-- The tail accumulator of `siphash24` (the `switch inlen & 7` block):
`t |= in[end+i] << (8*i)` over the 0-7 remaining bytes. -/
def sipTail : List Nat → Nat
  | [] => 0
  | x :: rest => x ||| (sipTail rest) <<< 8

/-- The finalization of `siphash24`: fold the length-tagged tail block `b`
into the state (`v3 ^= b`, 2 rounds, `v0 ^= b`), then `v2 ^= 0xff` and
4 rounds, and output the XOR of the four state words. -/
def sipFinal (s : SipState) (b : Nat) : Nat :=
  let s := { s with v3 := s.v3 ^^^ b }
  let s := sipRound (sipRound s)
  let s := { s with v0 := s.v0 ^^^ b }
  let s := { s with v2 := s.v2 ^^^ 0xff }
  let s := sipRound (sipRound (sipRound (sipRound s)))
  s.v0 ^^^ s.v1 ^^^ s.v2 ^^^ s.v3

/-- `siphash24` implements SipHash-2-4 (reference implementation). -/
def siphash24 (msg : List Nat) (k0 k1 : Nat) : Nat :=
  let v0 := 0x736f6d6570736575 ^^^ k0
  let v1 := 0x646f72616e646f6d ^^^ k1
  let v2 := 0x6c7967656e657261 ^^^ k0
  let v3 := 0x7465646279746573 ^^^ k1
  let inlen := msg.length
  let p := sipBlocks ⟨v0, v1, v2, v3⟩ msg
  let t := sipTail p.2
  let b := w64 (inlen <<< 56) ||| t
  sipFinal p.1 b

/-- `Version` returns the UUID version (`int(u[6]>>4) & 0x0F`). -/
def Version (u : UUID) : Nat := (u.b6 >>> 4) &&& 0x0F

/-- `SetVersion` sets the UUID version
(`u[6] = byte((u[6] & 0x0F) | byte((ver&0x0F)<<4))`). -/
def SetVersion (u : UUID) (ver : Nat) : UUID :=
  { u with b6 := ((u.b6 &&& 0x0F) ||| ((ver &&& 0x0F) <<< 4)) % 256 }

/-- `SetVariantRFC4122` sets the RFC4122 variant bits
(`u[8] = byte((u[8] & 0x3F) | 0x80)`). -/
def SetVariantRFC4122 (u : UUID) : UUID :=
  { u with b8 := ((u.b8 &&& 0x3F) ||| 0x80) % 256 }

/-- `buildSipInputFromV7` builds the 10-byte SipHash input from a v7 UUID:
`[low-nibble of b6][b7][b8&0x3F][b9..b15]`. -/
def buildSipInputFromV7 (u : UUID) : List Nat :=
  [u.b6 &&& 0x0F, u.b7, u.b8 &&& 0x3F,
   u.b9, u.b10, u.b11, u.b12, u.b13, u.b14, u.b15]

/-- `wr48be` writes a 48-bit big-endian value into bytes 0-5 of a UUID
(`dst[i] = byte(v48 >> (40-8*i))`). -/
def wr48be (u : UUID) (v48 : Nat) : UUID :=
  { u with
    b0 := (v48 >>> 40) % 256
    b1 := (v48 >>> 32) % 256
    b2 := (v48 >>> 24) % 256
    b3 := (v48 >>> 16) % 256
    b4 := (v48 >>> 8) % 256
    b5 := (v48 >>> 0) % 256 }

/-- `Encode` encodes a UUIDv7 as a UUIDv4 façade using the given key. -/
def Encode (v7 : UUID) (key : Key) : UUID :=
  let sipmsg := buildSipInputFromV7 v7
  let mask48 := siphash24 sipmsg key.K0 key.K1 &&& 0x0000FFFFFFFFFFFF
  let ts48 := rd48be [v7.b0, v7.b1, v7.b2, v7.b3, v7.b4, v7.b5]
  let encTS := ts48 ^^^ mask48
  let out := wr48be v7 encTS
  SetVariantRFC4122 (SetVersion out 4)

/-- `Decode` decodes a UUIDv4 façade back to UUIDv7 using the given key. -/
def Decode (v4facade : UUID) (key : Key) : UUID :=
  let sipmsg := buildSipInputFromV7 v4facade
  let mask48 := siphash24 sipmsg key.K0 key.K1 &&& 0x0000FFFFFFFFFFFF
  let encTS := rd48be [v4facade.b0, v4facade.b1, v4facade.b2, v4facade.b3, v4facade.b4, v4facade.b5]
  let ts48 := encTS ^^^ mask48
  let out := wr48be v4facade ts48
  SetVariantRFC4122 (SetVersion out 7)

/-- The error values of the package (`ErrInvalidLength`, `ErrInvalidFormat`,
`ErrInvalidHex`, `ErrInvalidVersion`, `ErrInvalidByteSlice`). -/
inductive UUIDError where
  | invalidLength
  | invalidFormat
  | invalidHex
  | invalidVersion
  | invalidByteSlice
deriving DecidableEq

/-- `hexval` converts a hex character to its value (`-1` when not hex). -/
def hexval (c : Char) : Int :=
  if '0' ≤ c ∧ c ≤ '9' then (c.toNat : Int) - ('0'.toNat : Int)
  else if 'a' ≤ c ∧ c ≤ 'f' then (c.toNat : Int) - ('a'.toNat : Int) + 10
  else if 'A' ≤ c ∧ c ≤ 'F' then (c.toNat : Int) - ('A'.toNat : Int) + 10
  else -1

/-- The character position of byte `i` inside the canonical string
(the `pos` computation of the `for i := range 16` loop of `Parse`). -/
def parsePos (i : Nat) : Nat :=
  if i < 4 then i * 2
  else if i < 6 then i * 2 + 1
  else if i < 8 then i * 2 + 2
  else if i < 10 then i * 2 + 3
  else i * 2 + 4

/-- The hex-decoding loop of `Parse`: for each character position `p` decode
the two hex digits at `p`, `p+1` into one byte, propagating the first
`ErrInvalidHex` (Go's early `return`). -/
def parseBytes (s : List Char) : List Nat → Except UUIDError (List Nat)
  | [] => Except.ok []
  | p :: rest =>
      let h := hexval (s.getD p ' ')
      let l := hexval (s.getD (p + 1) ' ')
      if h < 0 ∨ l < 0 then Except.error UUIDError.invalidHex
      else
        match parseBytes s rest with
        | Except.error e => Except.error e
        | Except.ok bs => Except.ok ((h.toNat <<< 4 ||| l.toNat) :: bs)

/-- `Parse` parses a UUID string in canonical format (8-4-4-4-12).
The Go return convention `(UUID{}, err)` / `(out, nil)` is modelled as
`Except`. -/
def Parse (s : List Char) : Except UUIDError UUID :=
  if s.length ≠ 36 then Except.error UUIDError.invalidLength
  else if s.getD 8 ' ' ≠ '-' ∨ s.getD 13 ' ' ≠ '-' ∨ s.getD 18 ' ' ≠ '-' ∨ s.getD 23 ' ' ≠ '-'
    then Except.error UUIDError.invalidFormat
  else
    match parseBytes s ((List.range 16).map parsePos) with
    | Except.error e => Except.error e
    | Except.ok bs =>
        Except.ok ⟨bs.getD 0 0, bs.getD 1 0, bs.getD 2 0, bs.getD 3 0,
                   bs.getD 4 0, bs.getD 5 0, bs.getD 6 0, bs.getD 7 0,
                   bs.getD 8 0, bs.getD 9 0, bs.getD 10 0, bs.getD 11 0,
                   bs.getD 12 0, bs.getD 13 0, bs.getD 14 0, bs.getD 15 0⟩

/-- The hex digit table of `String`. -/
def hexd : List Char := "0123456789abcdef".toList

/-- Indexing into the hex digit table (`hexd[n]`). -/
def hexdChar (n : Nat) : Char := hexd.getD n ' '

/-- `String` returns the UUID in canonical format (8-4-4-4-12): the byte
loop with `'-'` inserted before bytes 4, 6, 8 and 10, unrolled. -/
def UUID.String (u : UUID) : List Char :=
  [hexdChar ((u.b0 >>> 4) &&& 0xF), hexdChar (u.b0 &&& 0xF),
   hexdChar ((u.b1 >>> 4) &&& 0xF), hexdChar (u.b1 &&& 0xF),
   hexdChar ((u.b2 >>> 4) &&& 0xF), hexdChar (u.b2 &&& 0xF),
   hexdChar ((u.b3 >>> 4) &&& 0xF), hexdChar (u.b3 &&& 0xF), '-',
   hexdChar ((u.b4 >>> 4) &&& 0xF), hexdChar (u.b4 &&& 0xF),
   hexdChar ((u.b5 >>> 4) &&& 0xF), hexdChar (u.b5 &&& 0xF), '-',
   hexdChar ((u.b6 >>> 4) &&& 0xF), hexdChar (u.b6 &&& 0xF),
   hexdChar ((u.b7 >>> 4) &&& 0xF), hexdChar (u.b7 &&& 0xF), '-',
   hexdChar ((u.b8 >>> 4) &&& 0xF), hexdChar (u.b8 &&& 0xF),
   hexdChar ((u.b9 >>> 4) &&& 0xF), hexdChar (u.b9 &&& 0xF), '-',
   hexdChar ((u.b10 >>> 4) &&& 0xF), hexdChar (u.b10 &&& 0xF),
   hexdChar ((u.b11 >>> 4) &&& 0xF), hexdChar (u.b11 &&& 0xF),
   hexdChar ((u.b12 >>> 4) &&& 0xF), hexdChar (u.b12 &&& 0xF),
   hexdChar ((u.b13 >>> 4) &&& 0xF), hexdChar (u.b13 &&& 0xF),
   hexdChar ((u.b14 >>> 4) &&& 0xF), hexdChar (u.b14 &&& 0xF),
   hexdChar ((u.b15 >>> 4) &&& 0xF), hexdChar (u.b15 &&& 0xF)]

/-- `SetBytes` sets the UUID from a byte slice; the result models the
receiver's state after the call together with the returned error. -/
def SetBytes (u : UUID) (b : List Nat) : UUID × Option UUIDError :=
  if b.length ≠ 16 then (u, some UUIDError.invalidByteSlice)
  else (⟨b.getD 0 0, b.getD 1 0, b.getD 2 0, b.getD 3 0,
         b.getD 4 0, b.getD 5 0, b.getD 6 0, b.getD 7 0,
         b.getD 8 0, b.getD 9 0, b.getD 10 0, b.getD 11 0,
         b.getD 12 0, b.getD 13 0, b.getD 14 0, b.getD 15 0⟩, none)

/-- `UnmarshalText` parses the text and assigns on success; the result models
the receiver's state after the call together with the returned error. -/
def UnmarshalText (u : UUID) (text : List Char) : UUID × Option UUIDError :=
  match Parse text with
  | Except.error e => (u, some e)
  | Except.ok parsed => (parsed, none)

/-- The hyphen-placement check of `Parse` as a predicate. -/
def dashOK (s : List Char) : Prop :=
  s.getD 8 ' ' = '-' ∧ s.getD 13 ' ' = '-' ∧ s.getD 18 ' ' = '-' ∧ s.getD 23 ' ' = '-'

instance (s : List Char) : Decidable (dashOK s) := by
  unfold dashOK; infer_instance

/-- The 32 character positions of a canonical UUID string holding hex data. -/
def dataPositions : List Nat :=
  [0, 1, 2, 3, 4, 5, 6, 7, 9, 10, 11, 12, 14, 15, 16, 17, 19, 20, 21, 22,
   24, 25, 26, 27, 28, 29, 30, 31, 32, 33, 34, 35]

/-- Every data position of `s` holds a hex character. -/
def hexOK (s : List Char) : Prop :=
  ∀ p ∈ dataPositions, 0 ≤ hexval (s.getD p ' ')

instance (s : List Char) : Decidable (hexOK s) := by
  unfold hexOK; infer_instance

/-! ### Arithmetic helper lemmas -/

/-- Bitwise `or` of values with disjoint bit ranges is addition. -/
lemma or_eq_add (k x y : Nat) (hx : 2 ^ k ∣ x) (hy : y < 2 ^ k) :
    x ||| y = x + y := by
  obtain ⟨a, rfl⟩ := hx
  apply Nat.eq_of_testBit_eq
  intro i
  rw [Nat.testBit_mul_pow_two_add a hy i]
  simp only [Nat.testBit_or]
  have hsh : 2 ^ k * a = a <<< k := by rw [Nat.shiftLeft_eq]; ring
  by_cases h : i < k
  · have h1 : (2 ^ k * a).testBit i = false := by
      rw [hsh, Nat.testBit_shiftLeft]
      simp [Nat.not_le.mpr h]
    simp [h, h1]
  · have h1 : y.testBit i = false :=
      Nat.testBit_eq_false_of_lt
        (lt_of_lt_of_le hy (Nat.pow_le_pow_right (by norm_num) (Nat.not_lt.mp h)))
    have h2 : (2 ^ k * a).testBit i = a.testBit (i - k) := by
      rw [hsh, Nat.testBit_shiftLeft]
      simp [Nat.not_lt.mp h]
    simp [h, h1, h2]

lemma w64_lt (x : Nat) : w64 x < 2 ^ 64 := Nat.mod_lt x (by norm_num)

lemma rotl64_lt (x b : Nat) : rotl64 x b < 2 ^ 64 := w64_lt _

lemma and_15_eq_mod (x : Nat) : x &&& 15 = x % 16 := by
  have h := Nat.and_pow_two_sub_one_eq_mod x 4
  norm_num at h
  exact h

lemma and_63_eq_mod (x : Nat) : x &&& 63 = x % 64 := by
  have h := Nat.and_pow_two_sub_one_eq_mod x 6
  norm_num at h
  exact h

lemma and_mask48_eq_mod (x : Nat) : x &&& 0x0000FFFFFFFFFFFF = x % 2 ^ 48 := by
  have h := Nat.and_pow_two_sub_one_eq_mod x 48
  norm_num at h
  exact h

/-- `rd48be` on six in-range bytes is the big-endian weighted sum. -/
lemma rd48be_eq_sum (b0 b1 b2 b3 b4 b5 : Nat)
    (_h0 : b0 < 256) (h1 : b1 < 256) (h2 : b2 < 256)
    (h3 : b3 < 256) (h4 : b4 < 256) (h5 : b5 < 256) :
    rd48be [b0, b1, b2, b3, b4, b5] =
      b0 * 2 ^ 40 + b1 * 2 ^ 32 + b2 * 2 ^ 24 + b3 * 2 ^ 16 + b4 * 2 ^ 8 + b5 := by
  have e0 : b0 <<< 40 ||| b1 <<< 32 = b0 <<< 40 + b1 <<< 32 := by
    apply or_eq_add 40
    · exact ⟨b0, by rw [Nat.shiftLeft_eq]; ring⟩
    · rw [Nat.shiftLeft_eq]
      calc b1 * 2 ^ 32 < 256 * 2 ^ 32 := by
            exact Nat.mul_lt_mul_of_lt_of_le h1 (le_refl _) (by norm_num)
      _ ≤ 2 ^ 40 := by norm_num
  have e1 : b0 <<< 40 + b1 <<< 32 ||| b2 <<< 24 = b0 <<< 40 + b1 <<< 32 + b2 <<< 24 := by
    apply or_eq_add 32
    · exact ⟨b0 * 2 ^ 8 + b1, by simp only [Nat.shiftLeft_eq]; ring⟩
    · rw [Nat.shiftLeft_eq]
      calc b2 * 2 ^ 24 < 256 * 2 ^ 24 := by
            exact Nat.mul_lt_mul_of_lt_of_le h2 (le_refl _) (by norm_num)
      _ ≤ 2 ^ 32 := by norm_num
  have e2 : b0 <<< 40 + b1 <<< 32 + b2 <<< 24 ||| b3 <<< 16 =
      b0 <<< 40 + b1 <<< 32 + b2 <<< 24 + b3 <<< 16 := by
    apply or_eq_add 24
    · exact ⟨b0 * 2 ^ 16 + b1 * 2 ^ 8 + b2, by simp only [Nat.shiftLeft_eq]; ring⟩
    · rw [Nat.shiftLeft_eq]
      calc b3 * 2 ^ 16 < 256 * 2 ^ 16 := by
            exact Nat.mul_lt_mul_of_lt_of_le h3 (le_refl _) (by norm_num)
      _ ≤ 2 ^ 24 := by norm_num
  have e3 : b0 <<< 40 + b1 <<< 32 + b2 <<< 24 + b3 <<< 16 ||| b4 <<< 8 =
      b0 <<< 40 + b1 <<< 32 + b2 <<< 24 + b3 <<< 16 + b4 <<< 8 := by
    apply or_eq_add 16
    · exact ⟨b0 * 2 ^ 24 + b1 * 2 ^ 16 + b2 * 2 ^ 8 + b3, by simp only [Nat.shiftLeft_eq]; ring⟩
    · rw [Nat.shiftLeft_eq]
      calc b4 * 2 ^ 8 < 256 * 2 ^ 8 := by
            exact Nat.mul_lt_mul_of_lt_of_le h4 (le_refl _) (by norm_num)
      _ ≤ 2 ^ 16 := by norm_num
  have e4 : b0 <<< 40 + b1 <<< 32 + b2 <<< 24 + b3 <<< 16 + b4 <<< 8 ||| b5 <<< 0 =
      b0 <<< 40 + b1 <<< 32 + b2 <<< 24 + b3 <<< 16 + b4 <<< 8 + b5 <<< 0 := by
    apply or_eq_add 8
    · exact ⟨b0 * 2 ^ 32 + b1 * 2 ^ 24 + b2 * 2 ^ 16 + b3 * 2 ^ 8 + b4,
        by simp only [Nat.shiftLeft_eq]; ring⟩
    · rw [Nat.shiftLeft_eq]
      simpa using h5
  show b0 <<< 40 ||| b1 <<< 32 ||| b2 <<< 24 ||| b3 <<< 16 ||| b4 <<< 8 ||| b5 <<< 0 = _
  rw [e0, e1, e2, e3, e4]
  simp only [Nat.shiftLeft_eq]
  ring

lemma rd48be_lt (b0 b1 b2 b3 b4 b5 : Nat)
    (h0 : b0 < 256) (h1 : b1 < 256) (h2 : b2 < 256)
    (h3 : b3 < 256) (h4 : b4 < 256) (h5 : b5 < 256) :
    rd48be [b0, b1, b2, b3, b4, b5] < 2 ^ 48 := by
  rw [rd48be_eq_sum b0 b1 b2 b3 b4 b5 h0 h1 h2 h3 h4 h5]
  norm_num
  omega

/-- Reading back the six bytes written by `wr48be` recovers any 48-bit value. -/
lemma rd48be_of_bytes (v : Nat) (hv : v < 2 ^ 48) :
    rd48be [(v >>> 40) % 256, (v >>> 32) % 256, (v >>> 24) % 256,
            (v >>> 16) % 256, (v >>> 8) % 256, (v >>> 0) % 256] = v := by
  rw [rd48be_eq_sum _ _ _ _ _ _ (Nat.mod_lt _ (by norm_num)) (Nat.mod_lt _ (by norm_num))
    (Nat.mod_lt _ (by norm_num)) (Nat.mod_lt _ (by norm_num)) (Nat.mod_lt _ (by norm_num))
    (Nat.mod_lt _ (by norm_num))]
  simp only [Nat.shiftRight_eq_div_pow]
  norm_num
  omega

/-! ### Byte-level facts about the version / variant updates -/

lemma nibble_setv4 : ∀ m < 16, ((m ||| 64) % 256) &&& 15 = m := by decide

lemma nibble_setv7 : ∀ m < 16, ((m ||| 112) % 256) &&& 15 = m := by decide

lemma version_setv4 : ∀ m < 16, (((m ||| 64) % 256) >>> 4) &&& 15 = 4 := by decide

lemma version_setv7 : ∀ m < 16, (((m ||| 112) % 256) >>> 4) &&& 15 = 7 := by decide

lemma variant_low6 : ∀ m < 64, ((m ||| 128) % 256) &&& 63 = m := by decide

lemma variant_top2 : ∀ m < 64, ((m ||| 128) % 256) &&& 192 = 128 := by decide

lemma and_15_lt (x : Nat) : x &&& 15 < 16 := by
  rw [and_15_eq_mod]; exact Nat.mod_lt x (by norm_num)

lemma and_63_lt (x : Nat) : x &&& 63 < 64 := by
  rw [and_63_eq_mod]; exact Nat.mod_lt x (by norm_num)

/-- The `SetVersion _ 4` update leaves the low nibble of byte 6 unchanged. -/
lemma setv4_low_nibble (x : Nat) :
    (((x &&& 0x0F) ||| ((4 &&& 0x0F) <<< 4)) % 256) &&& 0x0F = x &&& 0x0F := by
  have h4 : ((4 : Nat) &&& 0x0F) <<< 4 = 64 := by decide
  rw [h4]
  exact nibble_setv4 (x &&& 0x0F) (and_15_lt x)

/-- The `SetVersion _ 7` update leaves the low nibble of byte 6 unchanged. -/
lemma setv7_low_nibble (x : Nat) :
    (((x &&& 0x0F) ||| ((7 &&& 0x0F) <<< 4)) % 256) &&& 0x0F = x &&& 0x0F := by
  have h7 : ((7 : Nat) &&& 0x0F) <<< 4 = 112 := by decide
  rw [h7]
  exact nibble_setv7 (x &&& 0x0F) (and_15_lt x)

/-- The `SetVariantRFC4122` update leaves the low 6 bits of byte 8 unchanged. -/
lemma setvar_low6 (x : Nat) :
    (((x &&& 0x3F) ||| 0x80) % 256) &&& 0x3F = x &&& 0x3F :=
  variant_low6 (x &&& 0x3F) (and_63_lt x)

/-! ### SipHash state bounds -/

lemma sipRound_lt (s : SipState) :
    (sipRound s).v0 < 2 ^ 64 ∧ (sipRound s).v1 < 2 ^ 64 ∧
    (sipRound s).v2 < 2 ^ 64 ∧ (sipRound s).v3 < 2 ^ 64 := by
  refine ⟨?_, ?_, ?_, ?_⟩ <;>
    simp only [sipRound] <;>
    first
      | exact w64_lt _
      | exact rotl64_lt _ _
      | exact Nat.xor_lt_two_pow (rotl64_lt _ _) (w64_lt _)

lemma xorOut_lt (s : SipState) :
    (sipRound s).v0 ^^^ (sipRound s).v1 ^^^ (sipRound s).v2 ^^^ (sipRound s).v3 < 2 ^ 64 := by
  obtain ⟨h0, h1, h2, h3⟩ := sipRound_lt s
  exact Nat.xor_lt_two_pow (Nat.xor_lt_two_pow (Nat.xor_lt_two_pow h0 h1) h2) h3

lemma sipFinal_lt (s : SipState) (b : Nat) : sipFinal s b < 2 ^ 64 := by
  unfold sipFinal
  exact xorOut_lt _

/-- The PRF output always fits in 64 bits, for every message and key. -/
lemma siphash24_lt (msg : List Nat) (k0 k1 : Nat) : siphash24 msg k0 k1 < 2 ^ 64 := by
  unfold siphash24
  exact sipFinal_lt _ _

/-! ### Frame facts about `Encode` and `Decode` -/

lemma Encode_b7 (x : UUID) (k : Key) : (Encode x k).b7 = x.b7 := by
  simp [Encode, wr48be, SetVersion, SetVariantRFC4122]

lemma Encode_rand_b (x : UUID) (k : Key) :
    (Encode x k).b9 = x.b9 ∧ (Encode x k).b10 = x.b10 ∧ (Encode x k).b11 = x.b11 ∧
    (Encode x k).b12 = x.b12 ∧ (Encode x k).b13 = x.b13 ∧ (Encode x k).b14 = x.b14 ∧
    (Encode x k).b15 = x.b15 := by
  simp [Encode, wr48be, SetVersion, SetVariantRFC4122]

lemma Encode_b6 (x : UUID) (k : Key) :
    (Encode x k).b6 = ((x.b6 &&& 0x0F) ||| ((4 &&& 0x0F) <<< 4)) % 256 := by
  simp [Encode, wr48be, SetVersion, SetVariantRFC4122]

lemma Encode_b8 (x : UUID) (k : Key) :
    (Encode x k).b8 = ((x.b8 &&& 0x3F) ||| 0x80) % 256 := by
  simp [Encode, wr48be, SetVersion, SetVariantRFC4122]

lemma Decode_b7 (x : UUID) (k : Key) : (Decode x k).b7 = x.b7 := by
  simp [Decode, wr48be, SetVersion, SetVariantRFC4122]

lemma Decode_rand_b (x : UUID) (k : Key) :
    (Decode x k).b9 = x.b9 ∧ (Decode x k).b10 = x.b10 ∧ (Decode x k).b11 = x.b11 ∧
    (Decode x k).b12 = x.b12 ∧ (Decode x k).b13 = x.b13 ∧ (Decode x k).b14 = x.b14 ∧
    (Decode x k).b15 = x.b15 := by
  simp [Decode, wr48be, SetVersion, SetVariantRFC4122]

lemma Decode_b6 (x : UUID) (k : Key) :
    (Decode x k).b6 = ((x.b6 &&& 0x0F) ||| ((7 &&& 0x0F) <<< 4)) % 256 := by
  simp [Decode, wr48be, SetVersion, SetVariantRFC4122]

lemma Decode_b8 (x : UUID) (k : Key) :
    (Decode x k).b8 = ((x.b8 &&& 0x3F) ||| 0x80) % 256 := by
  simp [Decode, wr48be, SetVersion, SetVariantRFC4122]

/-- The 10-byte SipHash message is unchanged by `Encode`: the mask step only
touches bytes 0-5, the version nibble and the variant bits. -/
lemma buildSip_Encode (x : UUID) (k : Key) :
    buildSipInputFromV7 (Encode x k) = buildSipInputFromV7 x := by
  have h6 := Encode_b6 x k
  have h8 := Encode_b8 x k
  have h7 := Encode_b7 x k
  obtain ⟨h9, h10, h11, h12, h13, h14, h15⟩ := Encode_rand_b x k
  simp only [buildSipInputFromV7, h6, h7, h8, h9, h10, h11, h12, h13, h14, h15,
    setv4_low_nibble, setvar_low6]

/-- The 10-byte SipHash message is unchanged by `Decode` as well. -/
lemma buildSip_Decode (x : UUID) (k : Key) :
    buildSipInputFromV7 (Decode x k) = buildSipInputFromV7 x := by
  have h6 := Decode_b6 x k
  have h8 := Decode_b8 x k
  have h7 := Decode_b7 x k
  obtain ⟨h9, h10, h11, h12, h13, h14, h15⟩ := Decode_rand_b x k
  simp only [buildSipInputFromV7, h6, h7, h8, h9, h10, h11, h12, h13, h14, h15,
    setv7_low_nibble, setvar_low6]

/-! ### Decode-of-Encode timestamp facts -/

lemma mask_lt (u : UUID) (k : Key) :
    siphash24 (buildSipInputFromV7 u) k.K0 k.K1 &&& 0x0000FFFFFFFFFFFF < 2 ^ 48 := by
  rw [and_mask48_eq_mod]
  exact Nat.mod_lt _ (by norm_num)

lemma Encode_ts_bytes (x : UUID) (k : Key) :
    (Encode x k).b0 = ((rd48be [x.b0, x.b1, x.b2, x.b3, x.b4, x.b5] ^^^
      (siphash24 (buildSipInputFromV7 x) k.K0 k.K1 &&& 0x0000FFFFFFFFFFFF)) >>> 40) % 256 ∧
    (Encode x k).b1 = ((rd48be [x.b0, x.b1, x.b2, x.b3, x.b4, x.b5] ^^^
      (siphash24 (buildSipInputFromV7 x) k.K0 k.K1 &&& 0x0000FFFFFFFFFFFF)) >>> 32) % 256 ∧
    (Encode x k).b2 = ((rd48be [x.b0, x.b1, x.b2, x.b3, x.b4, x.b5] ^^^
      (siphash24 (buildSipInputFromV7 x) k.K0 k.K1 &&& 0x0000FFFFFFFFFFFF)) >>> 24) % 256 ∧
    (Encode x k).b3 = ((rd48be [x.b0, x.b1, x.b2, x.b3, x.b4, x.b5] ^^^
      (siphash24 (buildSipInputFromV7 x) k.K0 k.K1 &&& 0x0000FFFFFFFFFFFF)) >>> 16) % 256 ∧
    (Encode x k).b4 = ((rd48be [x.b0, x.b1, x.b2, x.b3, x.b4, x.b5] ^^^
      (siphash24 (buildSipInputFromV7 x) k.K0 k.K1 &&& 0x0000FFFFFFFFFFFF)) >>> 8) % 256 ∧
    (Encode x k).b5 = ((rd48be [x.b0, x.b1, x.b2, x.b3, x.b4, x.b5] ^^^
      (siphash24 (buildSipInputFromV7 x) k.K0 k.K1 &&& 0x0000FFFFFFFFFFFF)) >>> 0) % 256 := by
  refine ⟨?_, ?_, ?_, ?_, ?_, ?_⟩ <;>
    simp [Encode, wr48be, SetVersion, SetVariantRFC4122]

lemma Decode_ts_bytes (u : UUID) (k : Key) :
    (Decode u k).b0 = ((rd48be [u.b0, u.b1, u.b2, u.b3, u.b4, u.b5] ^^^
      (siphash24 (buildSipInputFromV7 u) k.K0 k.K1 &&& 0x0000FFFFFFFFFFFF)) >>> 40) % 256 ∧
    (Decode u k).b1 = ((rd48be [u.b0, u.b1, u.b2, u.b3, u.b4, u.b5] ^^^
      (siphash24 (buildSipInputFromV7 u) k.K0 k.K1 &&& 0x0000FFFFFFFFFFFF)) >>> 32) % 256 ∧
    (Decode u k).b2 = ((rd48be [u.b0, u.b1, u.b2, u.b3, u.b4, u.b5] ^^^
      (siphash24 (buildSipInputFromV7 u) k.K0 k.K1 &&& 0x0000FFFFFFFFFFFF)) >>> 24) % 256 ∧
    (Decode u k).b3 = ((rd48be [u.b0, u.b1, u.b2, u.b3, u.b4, u.b5] ^^^
      (siphash24 (buildSipInputFromV7 u) k.K0 k.K1 &&& 0x0000FFFFFFFFFFFF)) >>> 16) % 256 ∧
    (Decode u k).b4 = ((rd48be [u.b0, u.b1, u.b2, u.b3, u.b4, u.b5] ^^^
      (siphash24 (buildSipInputFromV7 u) k.K0 k.K1 &&& 0x0000FFFFFFFFFFFF)) >>> 8) % 256 ∧
    (Decode u k).b5 = ((rd48be [u.b0, u.b1, u.b2, u.b3, u.b4, u.b5] ^^^
      (siphash24 (buildSipInputFromV7 u) k.K0 k.K1 &&& 0x0000FFFFFFFFFFFF)) >>> 0) % 256 := by
  refine ⟨?_, ?_, ?_, ?_, ?_, ?_⟩ <;>
    simp [Decode, wr48be, SetVersion, SetVariantRFC4122]

/-- Extracting the six big-endian bytes back out of `rd48be`. -/
lemma bytes_of_rd48be (b0 b1 b2 b3 b4 b5 : Nat)
    (h0 : b0 < 256) (h1 : b1 < 256) (h2 : b2 < 256)
    (h3 : b3 < 256) (h4 : b4 < 256) (h5 : b5 < 256) :
    ((rd48be [b0, b1, b2, b3, b4, b5]) >>> 40) % 256 = b0 ∧
    ((rd48be [b0, b1, b2, b3, b4, b5]) >>> 32) % 256 = b1 ∧
    ((rd48be [b0, b1, b2, b3, b4, b5]) >>> 24) % 256 = b2 ∧
    ((rd48be [b0, b1, b2, b3, b4, b5]) >>> 16) % 256 = b3 ∧
    ((rd48be [b0, b1, b2, b3, b4, b5]) >>> 8) % 256 = b4 ∧
    ((rd48be [b0, b1, b2, b3, b4, b5]) >>> 0) % 256 = b5 := by
  rw [rd48be_eq_sum b0 b1 b2 b3 b4 b5 h0 h1 h2 h3 h4 h5]
  simp only [Nat.shiftRight_eq_div_pow]
  norm_num
  omega

/-- The 48-bit field of `Encode x k` reads back as `ts XOR mask`. -/
lemma Decode_Encode_ts (x : UUID) (k : Key) (hx : x.Valid) :
    rd48be [(Encode x k).b0, (Encode x k).b1, (Encode x k).b2,
            (Encode x k).b3, (Encode x k).b4, (Encode x k).b5] =
      rd48be [x.b0, x.b1, x.b2, x.b3, x.b4, x.b5] ^^^
        (siphash24 (buildSipInputFromV7 x) k.K0 k.K1 &&& 0x0000FFFFFFFFFFFF) := by
  obtain ⟨e0, e1, e2, e3, e4, e5⟩ := Encode_ts_bytes x k
  rw [e0, e1, e2, e3, e4, e5]
  obtain ⟨hx0, hx1, hx2, hx3, hx4, hx5, -⟩ := hx
  exact rd48be_of_bytes _
    (Nat.xor_lt_two_pow (rd48be_lt _ _ _ _ _ _ hx0 hx1 hx2 hx3 hx4 hx5) (mask_lt x k))

/-! ### Facts about `parseBytes` -/

lemma parseBytes_ok (s : List Char) (ps : List Nat)
    (h : ∀ p ∈ ps, 0 ≤ hexval (s.getD p ' ') ∧ 0 ≤ hexval (s.getD (p + 1) ' ')) :
    parseBytes s ps = Except.ok (ps.map fun p =>
      (hexval (s.getD p ' ')).toNat <<< 4 ||| (hexval (s.getD (p + 1) ' ')).toNat) := by
  induction ps with
  | nil => rfl
  | cons p rest ih =>
      have hp := h p (List.mem_cons_self p rest)
      have hrest := ih (fun q hq => h q (List.mem_cons_of_mem p hq))
      simp only [parseBytes]
      rw [if_neg (by omega)]
      rw [hrest]
      simp

lemma parseBytes_error_eq (s : List Char) (ps : List Nat) (e : UUIDError)
    (h : parseBytes s ps = Except.error e) : e = UUIDError.invalidHex := by
  induction ps with
  | nil => simp [parseBytes] at h
  | cons p rest ih =>
      simp only [parseBytes] at h
      by_cases hc : hexval (s.getD p ' ') < 0 ∨ hexval (s.getD (p + 1) ' ') < 0
      · rw [if_pos hc] at h
        injection h with h'
        exact h'.symm
      · rw [if_neg hc] at h
        cases hpb : parseBytes s rest with
        | error e' =>
            rw [hpb] at h
            injection h with h'
            exact h' ▸ ih (hpb.trans (congrArg Except.error h'))
        | ok bs =>
            rw [hpb] at h
            simp at h

lemma parseBytes_ok_iff (s : List Char) (ps : List Nat) :
    (∃ bs, parseBytes s ps = Except.ok bs) ↔
      ∀ p ∈ ps, 0 ≤ hexval (s.getD p ' ') ∧ 0 ≤ hexval (s.getD (p + 1) ' ') := by
  constructor
  · induction ps with
    | nil => intro _; simp
    | cons p rest ih =>
        rintro ⟨bs, hbs⟩
        simp only [parseBytes] at hbs
        by_cases hc : hexval (s.getD p ' ') < 0 ∨ hexval (s.getD (p + 1) ' ') < 0
        · rw [if_pos hc] at hbs
          simp at hbs
        · rw [if_neg hc] at hbs
          intro q hq
          rcases List.mem_cons.mp hq with hq | hq
          · subst hq
            constructor <;> omega
          · cases hpb : parseBytes s rest with
            | error e' => rw [hpb] at hbs; simp at hbs
            | ok bs' => exact ih ⟨bs', hpb⟩ q hq
  · intro h
    exact ⟨_, parseBytes_ok s ps h⟩

/-- The data positions are exactly the byte positions and their successors. -/
lemma hexOK_iff_pairs (s : List Char) :
    hexOK s ↔ ∀ p ∈ (List.range 16).map parsePos,
      0 ≤ hexval (s.getD p ' ') ∧ 0 ≤ hexval (s.getD (p + 1) ' ') := by
  have hlist : (List.range 16).map parsePos =
      [0, 2, 4, 6, 9, 11, 14, 16, 19, 21, 24, 26, 28, 30, 32, 34] := by decide
  rw [hlist]
  constructor
  · intro h p hp
    fin_cases hp <;> exact ⟨h _ (by decide), h _ (by decide)⟩
  · intro h p hp
    unfold dataPositions at hp
    fin_cases hp <;>
      first
        | exact (h _ (by decide)).1
        | exact (h _ (by decide)).2

lemma Encode_Valid (x : UUID) (k : Key) (hx : x.Valid) : (Encode x k).Valid := by
  obtain ⟨e0, e1, e2, e3, e4, e5⟩ := Encode_ts_bytes x k
  obtain ⟨h9, h10, h11, h12, h13, h14, h15⟩ := Encode_rand_b x k
  obtain ⟨-, -, -, -, -, -, -, hx7, -, hx9, hx10, hx11, hx12, hx13, hx14, hx15⟩ := hx
  refine ⟨?_, ?_, ?_, ?_, ?_, ?_, ?_, ?_, ?_, ?_, ?_, ?_, ?_, ?_, ?_, ?_⟩
  · rw [e0]; exact Nat.mod_lt _ (by norm_num)
  · rw [e1]; exact Nat.mod_lt _ (by norm_num)
  · rw [e2]; exact Nat.mod_lt _ (by norm_num)
  · rw [e3]; exact Nat.mod_lt _ (by norm_num)
  · rw [e4]; exact Nat.mod_lt _ (by norm_num)
  · rw [e5]; exact Nat.mod_lt _ (by norm_num)
  · rw [Encode_b6]; exact Nat.mod_lt _ (by norm_num)
  · rw [Encode_b7]; exact hx7
  · rw [Encode_b8]; exact Nat.mod_lt _ (by norm_num)
  · rw [h9]; exact hx9
  · rw [h10]; exact hx10
  · rw [h11]; exact hx11
  · rw [h12]; exact hx12
  · rw [h13]; exact hx13
  · rw [h14]; exact hx14
  · rw [h15]; exact hx15

lemma Decode_Valid (x : UUID) (k : Key) (hx : x.Valid) : (Decode x k).Valid := by
  obtain ⟨e0, e1, e2, e3, e4, e5⟩ := Decode_ts_bytes x k
  obtain ⟨h9, h10, h11, h12, h13, h14, h15⟩ := Decode_rand_b x k
  obtain ⟨-, -, -, -, -, -, -, hx7, -, hx9, hx10, hx11, hx12, hx13, hx14, hx15⟩ := hx
  refine ⟨?_, ?_, ?_, ?_, ?_, ?_, ?_, ?_, ?_, ?_, ?_, ?_, ?_, ?_, ?_, ?_⟩
  · rw [e0]; exact Nat.mod_lt _ (by norm_num)
  · rw [e1]; exact Nat.mod_lt _ (by norm_num)
  · rw [e2]; exact Nat.mod_lt _ (by norm_num)
  · rw [e3]; exact Nat.mod_lt _ (by norm_num)
  · rw [e4]; exact Nat.mod_lt _ (by norm_num)
  · rw [e5]; exact Nat.mod_lt _ (by norm_num)
  · rw [Decode_b6]; exact Nat.mod_lt _ (by norm_num)
  · rw [Decode_b7]; exact hx7
  · rw [Decode_b8]; exact Nat.mod_lt _ (by norm_num)
  · rw [h9]; exact hx9
  · rw [h10]; exact hx10
  · rw [h11]; exact hx11
  · rw [h12]; exact hx12
  · rw [h13]; exact hx13
  · rw [h14]; exact hx14
  · rw [h15]; exact hx15

/-! ### Facts about hex digits and the codec -/

lemma hexval_hexdChar : ∀ d < 16, hexval (hexdChar d) = (d : Int) := by decide

lemma hexval_hexdChar_nonneg (d : Nat) (hd : d < 16) : 0 ≤ hexval (hexdChar d) := by
  rw [hexval_hexdChar d hd]
  exact Int.natCast_nonneg d

lemma hexdChar_mem_hexd : ∀ d < 16, hexdChar d ∈ hexd := by decide

set_option maxRecDepth 4096 in
lemma nibble_recombine : ∀ b < 256, ((b >>> 4) &&& 0xF) <<< 4 ||| (b &&& 0xF) = b := by
  decide

/-- Decoding the two hex digits of a byte recovers the byte. -/
lemma pb_hexdChar (b : Nat) (hb : b < 256) :
    (hexval (hexdChar ((b >>> 4) &&& 0xF))).toNat <<< 4 |||
      (hexval (hexdChar (b &&& 0xF))).toNat = b := by
  rw [hexval_hexdChar _ (and_15_lt _), hexval_hexdChar _ (and_15_lt _),
    Int.toNat_natCast, Int.toNat_natCast]
  exact nibble_recombine b hb

/-- The byte decoded by `Parse` at character position `p` (the loop body
`byte((h << 4) | l)`). -/
def pb (s : List Char) (p : Nat) : Nat :=
  (hexval (s.getD p ' ')).toNat <<< 4 ||| (hexval (s.getD (p + 1) ' ')).toNat

/-- `Parse` on a well-formed string: the success value, byte by byte. -/
lemma Parse_ok_eq (s : List Char) (h36 : s.length = 36) (hd : dashOK s)
    (hpairs : ∀ p ∈ (List.range 16).map parsePos,
      0 ≤ hexval (s.getD p ' ') ∧ 0 ≤ hexval (s.getD (p + 1) ' ')) :
    Parse s = Except.ok
      ⟨pb s 0, pb s 2, pb s 4, pb s 6, pb s 9, pb s 11, pb s 14, pb s 16,
       pb s 19, pb s 21, pb s 24, pb s 26, pb s 28, pb s 30, pb s 32, pb s 34⟩ := by
  have hlist : (List.range 16).map parsePos =
      [0, 2, 4, 6, 9, 11, 14, 16, 19, 21, 24, 26, 28, 30, 32, 34] := by decide
  have hpb := parseBytes_ok s _ hpairs
  rw [hlist] at hpb
  simp only [List.map_cons, List.map_nil] at hpb
  unfold Parse
  rw [if_neg (by simp [h36]),
    if_neg (by push_neg; exact ⟨hd.1, hd.2.1, hd.2.2.1, hd.2.2.2⟩), hlist, hpb]
  rfl

end Uuid47

namespace Uuid47

/-! ### Claim theorems -/

/-- C1: for every 128-bit UUID `x` and every key `k`,
`Decode (Encode x k) k` agrees with `x` on the 48-bit timestamp field
(bytes 0-5) and on all rand_a/rand_b bits (low nibble of byte 6, byte 7,
low 6 bits of byte 8, bytes 9-15), while the version nibble and variant
bits of the result are canonicalized to version 7 and variant `10`. -/
theorem C1_encode_decode_roundtrip (x : UUID) (k : Key) (hx : x.Valid) :
    (Decode (Encode x k) k).b0 = x.b0 ∧
    (Decode (Encode x k) k).b1 = x.b1 ∧
    (Decode (Encode x k) k).b2 = x.b2 ∧
    (Decode (Encode x k) k).b3 = x.b3 ∧
    (Decode (Encode x k) k).b4 = x.b4 ∧
    (Decode (Encode x k) k).b5 = x.b5 ∧
    (Decode (Encode x k) k).b6 &&& 0x0F = x.b6 &&& 0x0F ∧
    (Decode (Encode x k) k).b7 = x.b7 ∧
    (Decode (Encode x k) k).b8 &&& 0x3F = x.b8 &&& 0x3F ∧
    (Decode (Encode x k) k).b9 = x.b9 ∧
    (Decode (Encode x k) k).b10 = x.b10 ∧
    (Decode (Encode x k) k).b11 = x.b11 ∧
    (Decode (Encode x k) k).b12 = x.b12 ∧
    (Decode (Encode x k) k).b13 = x.b13 ∧
    (Decode (Encode x k) k).b14 = x.b14 ∧
    (Decode (Encode x k) k).b15 = x.b15 ∧
    Version (Decode (Encode x k) k) = 7 ∧
    (Decode (Encode x k) k).b8 &&& 0xC0 = 0x80 := by
  obtain ⟨d0, d1, d2, d3, d4, d5⟩ := Decode_ts_bytes (Encode x k) k
  rw [buildSip_Encode x k, Decode_Encode_ts x k hx, Nat.xor_cancel_right]
    at d0 d1 d2 d3 d4 d5
  obtain ⟨hx0, hx1, hx2, hx3, hx4, hx5, -⟩ := hx
  obtain ⟨p0, p1, p2, p3, p4, p5⟩ :=
    bytes_of_rd48be x.b0 x.b1 x.b2 x.b3 x.b4 x.b5 hx0 hx1 hx2 hx3 hx4 hx5
  obtain ⟨r9, r10, r11, r12, r13, r14, r15⟩ := Decode_rand_b (Encode x k) k
  obtain ⟨s9, s10, s11, s12, s13, s14, s15⟩ := Encode_rand_b x k
  have h112 : ((7 : Nat) &&& 0x0F) <<< 4 = 112 := by decide
  refine ⟨d0.trans p0, d1.trans p1, d2.trans p2, d3.trans p3, d4.trans p4, d5.trans p5,
    ?_, ?_, ?_, r9.trans s9, r10.trans s10, r11.trans s11, r12.trans s12,
    r13.trans s13, r14.trans s14, r15.trans s15, ?_, ?_⟩
  · rw [Decode_b6, setv7_low_nibble, Encode_b6, setv4_low_nibble]
  · exact (Decode_b7 (Encode x k) k).trans (Encode_b7 x k)
  · rw [Decode_b8, setvar_low6, Encode_b8, setvar_low6]
  · simp only [Version]
    rw [Decode_b6, h112]
    exact version_setv7 _ (and_15_lt _)
  · rw [Decode_b8]
    exact variant_top2 _ (and_63_lt _)

/-- C1 witness: the round-trip theorem instantiated at the concrete UUID
and key of the package example. -/
theorem C1_encode_decode_roundtrip_witness :
    (UUID.Valid ⟨0x01, 0x8f, 0x2d, 0x9f, 0x9a, 0x2a, 0x7d, 0xef,
                 0x8c, 0x3f, 0x7b, 0x1a, 0x2c, 0x4d, 0x5e, 0x6f⟩) ∧
    (Decode (Encode ⟨0x01, 0x8f, 0x2d, 0x9f, 0x9a, 0x2a, 0x7d, 0xef,
                     0x8c, 0x3f, 0x7b, 0x1a, 0x2c, 0x4d, 0x5e, 0x6f⟩
                    ⟨0x0123456789abcdef, 0xfedcba9876543210⟩)
            ⟨0x0123456789abcdef, 0xfedcba9876543210⟩).b0 = 0x01 :=
  ⟨by decide,
   (C1_encode_decode_roundtrip
     ⟨0x01, 0x8f, 0x2d, 0x9f, 0x9a, 0x2a, 0x7d, 0xef,
      0x8c, 0x3f, 0x7b, 0x1a, 0x2c, 0x4d, 0x5e, 0x6f⟩
     ⟨0x0123456789abcdef, 0xfedcba9876543210⟩ (by decide)).1⟩

/-- C2: the PRF engine matches the published SipHash-2-4 reference outputs
for the standard test key and the messages `[0,1,...,L-1]`, `L = 0..12`
(the 13 vectors exercised by the repository's test). -/
theorem C2_siphash_reference_vectors :
    siphash24 (List.range 0) 0x0706050403020100 0x0f0e0d0c0b0a0908 = 0x726fdb47dd0e0e31 ∧
    siphash24 (List.range 1) 0x0706050403020100 0x0f0e0d0c0b0a0908 = 0x74f839c593dc67fd ∧
    siphash24 (List.range 2) 0x0706050403020100 0x0f0e0d0c0b0a0908 = 0x0d6c8009d9a94f5a ∧
    siphash24 (List.range 3) 0x0706050403020100 0x0f0e0d0c0b0a0908 = 0x85676696d7fb7e2d ∧
    siphash24 (List.range 4) 0x0706050403020100 0x0f0e0d0c0b0a0908 = 0xcf2794e0277187b7 ∧
    siphash24 (List.range 5) 0x0706050403020100 0x0f0e0d0c0b0a0908 = 0x18765564cd99a68d ∧
    siphash24 (List.range 6) 0x0706050403020100 0x0f0e0d0c0b0a0908 = 0xcbc9466e58fee3ce ∧
    siphash24 (List.range 7) 0x0706050403020100 0x0f0e0d0c0b0a0908 = 0xab0200f58b01d137 ∧
    siphash24 (List.range 8) 0x0706050403020100 0x0f0e0d0c0b0a0908 = 0x93f5f5799a932462 ∧
    siphash24 (List.range 9) 0x0706050403020100 0x0f0e0d0c0b0a0908 = 0x9e0082df0ba9e4b0 ∧
    siphash24 (List.range 10) 0x0706050403020100 0x0f0e0d0c0b0a0908 = 0x7a5dbbc594ddb9f3 ∧
    siphash24 (List.range 11) 0x0706050403020100 0x0f0e0d0c0b0a0908 = 0xf4b32f46226bada7 ∧
    siphash24 (List.range 12) 0x0706050403020100 0x0f0e0d0c0b0a0908 = 0x751e8fbc860ee5fb := by
  decide

/-- C3: for every input UUID and every key, the `Encode` output carries
version nibble 4 and variant bits `10`, and the `Decode` output carries
version nibble 7 and variant bits `10`, regardless of input tagging. -/
theorem C3_format_tagging (x : UUID) (k : Key) :
    Version (Encode x k) = 4 ∧ (Encode x k).b8 &&& 0xC0 = 0x80 ∧
    Version (Decode x k) = 7 ∧ (Decode x k).b8 &&& 0xC0 = 0x80 := by
  have h64 : ((4 : Nat) &&& 0x0F) <<< 4 = 64 := by decide
  have h112 : ((7 : Nat) &&& 0x0F) <<< 4 = 112 := by decide
  refine ⟨?_, ?_, ?_, ?_⟩
  · simp only [Version]
    rw [Encode_b6, h64]
    exact version_setv4 _ (and_15_lt _)
  · rw [Encode_b8]
    exact variant_top2 _ (and_63_lt _)
  · simp only [Version]
    rw [Decode_b6, h112]
    exact version_setv7 _ (and_15_lt _)
  · rw [Decode_b8]
    exact variant_top2 _ (and_63_lt _)

/-- C4: `Encode` never alters the rand_a/rand_b bits: the low nibble of
byte 6, byte 7, the low 6 bits of byte 8 and bytes 9-15 of the output are
identical to the input's, for every UUID and key. -/
theorem C4_encode_field_isolation (x : UUID) (k : Key) :
    (Encode x k).b6 &&& 0x0F = x.b6 &&& 0x0F ∧
    (Encode x k).b7 = x.b7 ∧
    (Encode x k).b8 &&& 0x3F = x.b8 &&& 0x3F ∧
    (Encode x k).b9 = x.b9 ∧
    (Encode x k).b10 = x.b10 ∧
    (Encode x k).b11 = x.b11 ∧
    (Encode x k).b12 = x.b12 ∧
    (Encode x k).b13 = x.b13 ∧
    (Encode x k).b14 = x.b14 ∧
    (Encode x k).b15 = x.b15 := by
  obtain ⟨h9, h10, h11, h12, h13, h14, h15⟩ := Encode_rand_b x k
  refine ⟨?_, Encode_b7 x k, ?_, h9, h10, h11, h12, h13, h14, h15⟩
  · rw [Encode_b6, setv4_low_nibble]
  · rw [Encode_b8, setvar_low6]

/-- C5: the 10-byte PRF message (`[b6 & 0x0F, b7, b8 & 0x3F, b9..b15]`)
computed from `Encode x k` (resp. `Decode x k`) equals the message computed
from `x`, for every UUID and key, so both directions derive the same
48-bit mask. -/
theorem C5_sip_message_stable (x : UUID) (k : Key) :
    buildSipInputFromV7 (Encode x k) = buildSipInputFromV7 x ∧
    buildSipInputFromV7 (Decode x k) = buildSipInputFromV7 x ∧
    siphash24 (buildSipInputFromV7 (Encode x k)) k.K0 k.K1 &&& 0x0000FFFFFFFFFFFF =
      siphash24 (buildSipInputFromV7 x) k.K0 k.K1 &&& 0x0000FFFFFFFFFFFF ∧
    siphash24 (buildSipInputFromV7 (Decode x k)) k.K0 k.K1 &&& 0x0000FFFFFFFFFFFF =
      siphash24 (buildSipInputFromV7 x) k.K0 k.K1 &&& 0x0000FFFFFFFFFFFF :=
  ⟨buildSip_Encode x k, buildSip_Decode x k,
   by rw [buildSip_Encode], by rw [buildSip_Decode]⟩

/-- C6: the concrete scenario of the package example: the given v7 bytes
encode to the given façade bytes under the given key, and decode back. -/
theorem C6_concrete_scenario :
    Encode ⟨0x01, 0x8f, 0x2d, 0x9f, 0x9a, 0x2a, 0x7d, 0xef,
            0x8c, 0x3f, 0x7b, 0x1a, 0x2c, 0x4d, 0x5e, 0x6f⟩
           ⟨0x0123456789abcdef, 0xfedcba9876543210⟩ =
      ⟨0x24, 0x63, 0xc7, 0x80, 0x7f, 0xca, 0x4d, 0xef,
       0x8c, 0x3f, 0x7b, 0x1a, 0x2c, 0x4d, 0x5e, 0x6f⟩ ∧
    Decode ⟨0x24, 0x63, 0xc7, 0x80, 0x7f, 0xca, 0x4d, 0xef,
            0x8c, 0x3f, 0x7b, 0x1a, 0x2c, 0x4d, 0x5e, 0x6f⟩
           ⟨0x0123456789abcdef, 0xfedcba9876543210⟩ =
      ⟨0x01, 0x8f, 0x2d, 0x9f, 0x9a, 0x2a, 0x7d, 0xef,
       0x8c, 0x3f, 0x7b, 0x1a, 0x2c, 0x4d, 0x5e, 0x6f⟩ := by
  decide

/-- C7: `siphash24`, `Encode` and `Decode` are total, deterministic
functions: the PRF always yields a defined 64-bit output, the transforms
map byte-valid inputs (including ones with arbitrary version/variant
tagging, which are silently accepted) to byte-valid 128-bit outputs, and
identical inputs give identical outputs. -/
theorem C7_total_deterministic :
    (∀ msg : List Nat, ∀ k0 k1 : Nat, siphash24 msg k0 k1 < 2 ^ 64) ∧
    (∀ x : UUID, ∀ k : Key, x.Valid → (Encode x k).Valid ∧ (Decode x k).Valid) ∧
    (∀ x y : UUID, ∀ k j : Key, x = y → k = j →
      Encode x k = Encode y j ∧ Decode x k = Decode y j ∧
      siphash24 (buildSipInputFromV7 x) k.K0 k.K1 =
        siphash24 (buildSipInputFromV7 y) j.K0 j.K1) := by
  refine ⟨siphash24_lt, fun x k hx => ⟨Encode_Valid x k hx, Decode_Valid x k hx⟩,
    fun x y k j hxy hkj => ?_⟩
  subst hxy
  subst hkj
  exact ⟨rfl, rfl, rfl⟩

/-- C7 witness: totality and determinism at a concrete malformed
(version-nibble 0xC) input and concrete key. -/
theorem C7_total_deterministic_witness :
    (UUID.Valid ⟨0xff, 0, 0, 0, 0, 0, 0xC5, 1, 0xF2, 3, 4, 5, 6, 7, 8, 9⟩) ∧
    (Encode ⟨0xff, 0, 0, 0, 0, 0, 0xC5, 1, 0xF2, 3, 4, 5, 6, 7, 8, 9⟩ ⟨5, 6⟩).Valid ∧
    (Decode ⟨0xff, 0, 0, 0, 0, 0, 0xC5, 1, 0xF2, 3, 4, 5, 6, 7, 8, 9⟩ ⟨5, 6⟩).Valid ∧
    Encode ⟨0xff, 0, 0, 0, 0, 0, 0xC5, 1, 0xF2, 3, 4, 5, 6, 7, 8, 9⟩ ⟨5, 6⟩ =
      Encode ⟨0xff, 0, 0, 0, 0, 0, 0xC5, 1, 0xF2, 3, 4, 5, 6, 7, 8, 9⟩ ⟨5, 6⟩ := by
  refine ⟨by decide, ?_, ?_, ?_⟩
  · exact (C7_total_deterministic.2.1
      ⟨0xff, 0, 0, 0, 0, 0, 0xC5, 1, 0xF2, 3, 4, 5, 6, 7, 8, 9⟩ ⟨5, 6⟩ (by decide)).1
  · exact (C7_total_deterministic.2.1
      ⟨0xff, 0, 0, 0, 0, 0, 0xC5, 1, 0xF2, 3, 4, 5, 6, 7, 8, 9⟩ ⟨5, 6⟩ (by decide)).2
  · exact (C7_total_deterministic.2.2
      ⟨0xff, 0, 0, 0, 0, 0, 0xC5, 1, 0xF2, 3, 4, 5, 6, 7, 8, 9⟩
      ⟨0xff, 0, 0, 0, 0, 0, 0xC5, 1, 0xF2, 3, 4, 5, 6, 7, 8, 9⟩ ⟨5, 6⟩ ⟨5, 6⟩ rfl rfl).1

/-- C8: `Parse` succeeds exactly on 36-character strings with hyphens at
offsets 8, 13, 18, 23 and hex characters at the 32 data positions, and the
failure kinds are distinct: wrong length gives `ErrInvalidLength`,
misplaced hyphens give `ErrInvalidFormat`, and a non-hex character at a
data position gives `ErrInvalidHex`. -/
theorem C8_parse_error_classification (s : List Char) :
    (s.length ≠ 36 → Parse s = Except.error UUIDError.invalidLength) ∧
    (s.length = 36 → ¬ dashOK s → Parse s = Except.error UUIDError.invalidFormat) ∧
    (s.length = 36 → dashOK s → ¬ hexOK s → Parse s = Except.error UUIDError.invalidHex) ∧
    ((∃ u, Parse s = Except.ok u) ↔ s.length = 36 ∧ dashOK s ∧ hexOK s) := by
  have hdash : dashOK s →
      ¬(s.getD 8 ' ' ≠ '-' ∨ s.getD 13 ' ' ≠ '-' ∨
        s.getD 18 ' ' ≠ '-' ∨ s.getD 23 ' ' ≠ '-') := by
    intro hd
    push_neg
    exact ⟨hd.1, hd.2.1, hd.2.2.1, hd.2.2.2⟩
  refine ⟨?_, ?_, ?_, ?_⟩
  · intro h
    unfold Parse
    rw [if_pos h]
  · intro h36 hnd
    unfold Parse
    rw [if_neg (by simp [h36]), if_pos (by unfold dashOK at hnd; tauto)]
  · intro h36 hd hnh
    unfold Parse
    rw [if_neg (by simp [h36]), if_neg (hdash hd)]
    cases hpb : parseBytes s ((List.range 16).map parsePos) with
    | error e =>
        have he := parseBytes_error_eq s _ e hpb
        subst he
        rfl
    | ok bs =>
        exact absurd ((hexOK_iff_pairs s).mpr ((parseBytes_ok_iff s _).mp ⟨bs, hpb⟩)) hnh
  · constructor
    · rintro ⟨u, hu⟩
      unfold Parse at hu
      by_cases h36 : s.length = 36
      · rw [if_neg (by simp [h36])] at hu
        by_cases hd : dashOK s
        · refine ⟨h36, hd, ?_⟩
          rw [if_neg (hdash hd)] at hu
          cases hpb : parseBytes s ((List.range 16).map parsePos) with
          | error e => rw [hpb] at hu; simp at hu
          | ok bs => exact (hexOK_iff_pairs s).mpr ((parseBytes_ok_iff s _).mp ⟨bs, hpb⟩)
        · rw [if_pos (by unfold dashOK at hd; tauto)] at hu
          simp at hu
      · rw [if_pos h36] at hu
        simp at hu
    · rintro ⟨h36, hd, hh⟩
      rw [Parse_ok_eq s h36 hd ((hexOK_iff_pairs s).mp hh)]
      exact ⟨_, rfl⟩

/-- C8 witness: each failure kind at a concrete string, plus a concrete
success, obtained from the classification theorem. -/
theorem C8_parse_error_classification_witness :
    Parse "too-short".toList = Except.error UUIDError.invalidLength ∧
    Parse "01234567_1234_1234_1234_123456789012".toList =
      Except.error UUIDError.invalidFormat ∧
    Parse "01234567-1234-1234-1234-1234567890zz".toList =
      Except.error UUIDError.invalidHex ∧
    (∃ u, Parse "018f2d9f-9a2a-7def-8c3f-7b1a2c4d5e6f".toList = Except.ok u) :=
  ⟨(C8_parse_error_classification _).1 (by decide),
   (C8_parse_error_classification _).2.1 (by decide) (by decide),
   (C8_parse_error_classification _).2.2.1 (by decide) (by decide) (by decide),
   (C8_parse_error_classification _).2.2.2.mpr ⟨by decide, by decide, by decide⟩⟩

/-- C9: for every byte-valid UUID `u`, `u.String` is a 36-character
canonical string (hyphens at offsets 8, 13, 18, 23, every other character
a lowercase hex digit) and `Parse (u.String) = ok u`: `Parse` is a left
inverse of `String`. -/
theorem C9_string_parse_roundtrip (u : UUID) (hu : u.Valid) :
    (UUID.String u).length = 36 ∧
    dashOK (UUID.String u) ∧
    (∀ c ∈ UUID.String u, c = '-' ∨ c ∈ hexd) ∧
    Parse (UUID.String u) = Except.ok u := by
  obtain ⟨b0, b1, b2, b3, b4, b5, b6, b7, b8, b9, b10, b11, b12, b13, b14, b15⟩ := u
  obtain ⟨h0, h1, h2, h3, h4, h5, h6, h7, h8, h9, h10, h11, h12, h13, h14, h15⟩ := hu
  refine ⟨rfl, ⟨rfl, rfl, rfl, rfl⟩, ?_, ?_⟩
  · intro c hc
    fin_cases hc <;>
      first
        | exact Or.inl rfl
        | exact Or.inr (hexdChar_mem_hexd _ (and_15_lt _))
  · have hpairs : ∀ p ∈ (List.range 16).map parsePos,
        0 ≤ hexval ((UUID.String ⟨b0, b1, b2, b3, b4, b5, b6, b7,
                                  b8, b9, b10, b11, b12, b13, b14, b15⟩).getD p ' ') ∧
        0 ≤ hexval ((UUID.String ⟨b0, b1, b2, b3, b4, b5, b6, b7,
                                  b8, b9, b10, b11, b12, b13, b14, b15⟩).getD (p + 1) ' ') := by
      intro p hp
      fin_cases hp <;>
        exact ⟨hexval_hexdChar_nonneg _ (and_15_lt _), hexval_hexdChar_nonneg _ (and_15_lt _)⟩
    rw [Parse_ok_eq (UUID.String ⟨b0, b1, b2, b3, b4, b5, b6, b7,
                                  b8, b9, b10, b11, b12, b13, b14, b15⟩)
      rfl ⟨rfl, rfl, rfl, rfl⟩ hpairs]
    simp only [Except.ok.injEq, UUID.mk.injEq]
    exact ⟨pb_hexdChar b0 h0, pb_hexdChar b1 h1, pb_hexdChar b2 h2, pb_hexdChar b3 h3,
      pb_hexdChar b4 h4, pb_hexdChar b5 h5, pb_hexdChar b6 h6, pb_hexdChar b7 h7,
      pb_hexdChar b8 h8, pb_hexdChar b9 h9, pb_hexdChar b10 h10, pb_hexdChar b11 h11,
      pb_hexdChar b12 h12, pb_hexdChar b13 h13, pb_hexdChar b14 h14, pb_hexdChar b15 h15⟩

/-- C9 witness: the round-trip at the concrete UUID of the package example. -/
theorem C9_string_parse_roundtrip_witness :
    (UUID.Valid ⟨0x01, 0x8f, 0x2d, 0x9f, 0x9a, 0x2a, 0x7d, 0xef,
                 0x8c, 0x3f, 0x7b, 0x1a, 0x2c, 0x4d, 0x5e, 0x6f⟩) ∧
    Parse (UUID.String ⟨0x01, 0x8f, 0x2d, 0x9f, 0x9a, 0x2a, 0x7d, 0xef,
                        0x8c, 0x3f, 0x7b, 0x1a, 0x2c, 0x4d, 0x5e, 0x6f⟩) =
      Except.ok ⟨0x01, 0x8f, 0x2d, 0x9f, 0x9a, 0x2a, 0x7d, 0xef,
                 0x8c, 0x3f, 0x7b, 0x1a, 0x2c, 0x4d, 0x5e, 0x6f⟩ :=
  ⟨by decide,
   (C9_string_parse_roundtrip
     ⟨0x01, 0x8f, 0x2d, 0x9f, 0x9a, 0x2a, 0x7d, 0xef,
      0x8c, 0x3f, 0x7b, 0x1a, 0x2c, 0x4d, 0x5e, 0x6f⟩ (by decide)).2.2.2⟩

/-- C10: `SetBytes` errors with `ErrInvalidByteSlice` exactly when the
slice length is not 16 and `UnmarshalText` errors exactly when `Parse`
errors (propagating that error); in every error case the receiver is left
unchanged, and on success the receiver holds the copied / parsed bytes. -/
theorem C10_setbytes_unmarshal_atomic (u : UUID) (b : List Nat) (t : List Char) :
    ((SetBytes u b).2 = some UUIDError.invalidByteSlice ↔ b.length ≠ 16) ∧
    (b.length ≠ 16 → (SetBytes u b).1 = u) ∧
    (b.length = 16 →
      (SetBytes u b).1 = ⟨b.getD 0 0, b.getD 1 0, b.getD 2 0, b.getD 3 0,
                          b.getD 4 0, b.getD 5 0, b.getD 6 0, b.getD 7 0,
                          b.getD 8 0, b.getD 9 0, b.getD 10 0, b.getD 11 0,
                          b.getD 12 0, b.getD 13 0, b.getD 14 0, b.getD 15 0⟩ ∧
      (SetBytes u b).2 = none) ∧
    (∀ e, Parse t = Except.error e → UnmarshalText u t = (u, some e)) ∧
    (∀ v, Parse t = Except.ok v → UnmarshalText u t = (v, none)) := by
  refine ⟨?_, ?_, ?_, ?_, ?_⟩
  · by_cases hl : b.length = 16 <;> simp [SetBytes, hl]
  · intro hl; simp [SetBytes, hl]
  · intro hl; simp [SetBytes, hl]
  · intro e he; simp [UnmarshalText, he]
  · intro v hv; simp [UnmarshalText, hv]

/-- C10 witness: a failing `SetBytes` leaves the receiver unchanged, and a
failing `UnmarshalText` propagates the parse error without assignment. -/
theorem C10_setbytes_unmarshal_atomic_witness :
    (SetBytes ⟨1, 2, 3, 4, 5, 6, 7, 8, 9, 10, 11, 12, 13, 14, 15, 16⟩ [1, 2, 3]).1 =
      ⟨1, 2, 3, 4, 5, 6, 7, 8, 9, 10, 11, 12, 13, 14, 15, 16⟩ ∧
    UnmarshalText ⟨1, 2, 3, 4, 5, 6, 7, 8, 9, 10, 11, 12, 13, 14, 15, 16⟩ "nope".toList =
      (⟨1, 2, 3, 4, 5, 6, 7, 8, 9, 10, 11, 12, 13, 14, 15, 16⟩,
       some UUIDError.invalidLength) :=
  ⟨(C10_setbytes_unmarshal_atomic _ [1, 2, 3] []).2.1 (by decide),
   (C10_setbytes_unmarshal_atomic
     ⟨1, 2, 3, 4, 5, 6, 7, 8, 9, 10, 11, 12, 13, 14, 15, 16⟩ [] "nope".toList).2.2.2.1
     UUIDError.invalidLength (by rfl)⟩

end Uuid47
